import Mathlib

/-!
Shallow embedding of the quiz application (`app.py`): the question bank,
the question-set selector (`get_questions`), the grading engine
(`submit_quiz`), the participant registry (`register`), the ranking
service (`/api/leaderboard`, `/admin/api/top`) and the admin bank
mutation (`admin_api_add_question`).

Conventions of the embedding:
* Python values that may be absent or fail integer coercion are encoded
  with `Option`: `none` stands for "absent" or "coercion fails",
  depending on the field (documented at each field).
* Numeric time values are modelled as rationals (`ℚ`); the grading
  arithmetic on them is exact addition and division.
* The relational store (peewee models `Participant`, `Result`, `Answer`)
  is modelled as association lists keyed by the participant's `regno`,
  reflecting the one-to-one `Participant`/`Result` relationship and the
  ownership of `Answer` rows by a `Result`.
* `random.choice([set_a, set_b])` is modelled by a boolean parameter
  `pick_a` (`true` selects `set_a`).
* The SQL `ORDER BY points DESC, avg_time ASC` is modelled as a sort of
  the row list with respect to that comparator (`List.insertionSort`).
-/

namespace QuizApp

/-- Python's `str.strip()`: remove whitespace from both ends.  (Defined
over the character list so that it evaluates by kernel reduction.) -/
def strTrim (s : String) : String :=
  ⟨((s.data.dropWhile Char.isWhitespace).reverse.dropWhile Char.isWhitespace).reverse⟩

/-- Decimal value of a non-empty run of digit characters; `none` when
empty or when any character is not a digit. -/
def charsToNat (l : List Char) : Option Nat :=
  if l.isEmpty then none
  else l.foldl (fun acc c =>
    acc.bind (fun n => if c.isDigit then some (n * 10 + (c.toNat - 48)) else none)) (some 0)

/-- Python's `int(...)` applied to a stripped string: an optional sign
followed by one or more decimal digits, `none` on failure.  (Defined
over the character list so that it evaluates by kernel reduction.) -/
def strToInt (s : String) : Option Int :=
  match s.data with
  | [] => none
  | c :: rest =>
    if c = '-' then (charsToNat rest).map (fun n => -(n : Int))
    else if c = '+' then (charsToNat rest).map (fun n => (n : Int))
    else (charsToNat s.data).map (fun n => (n : Int))

/-- One entry of `questions.json`: `{"question": ..., "options": ...,
"answer": ...}`.  The stored `answer` is `some n` when the JSON value is
an integer `n`, `none` when it is missing or not an integer (grading
checks `isinstance(correct_answer, int)`). -/
structure Question where
  question : String
  options : List String
  answer : Option Int
  deriving DecidableEq, Inhabited, Repr

/-- One submitted answer item `{qId, selected, time_sec}` of a
`/submit-quiz` batch.
* `qId = none`: the key is absent (Python then falls back to the
  enumeration index `i`); `qId = some none`: present but `int(...)`
  fails; `qId = some (some n)`: coerces to the integer `n`.
* `selected = none`: absent or `int(...)` fails (an absent key yields
  `None` and `int(None)` raises); `selected = some n`: coerces to `n`.
* `time_sec = some t`: the value is numeric (`isinstance(time_sec,
  (int, float))`); `none` otherwise. -/
structure AnsItem where
  qId : Option (Option Int)
  selected : Option Int
  time_sec : Option ℚ
  deriving DecidableEq, Repr

/-- The grading accumulators `correct`, `total_time`, `time_counts` of
`submit_quiz`. -/
structure GradeAcc where
  correct : Nat
  total_time : ℚ
  time_counts : Nat
  deriving DecidableEq, Repr

/-- The aggregate fields of a `Result` row. -/
structure ResultRow where
  correct : Nat
  points : Nat
  avg_time : ℚ
  deriving DecidableEq, Repr

/-- A `Participant` row. -/
structure Participant where
  name : String
  regno : String
  college : String
  dept : String
  year : Int
  deriving DecidableEq, Repr

/-- The relational store: participants, one `Result` per regno, and the
`Answer` rows owned by each regno's `Result` (one stored row per
submitted batch item, in batch order). -/
structure Store where
  participants : List Participant
  results : List (String × ResultRow)
  answers : List (String × List AnsItem)
  deriving DecidableEq, Repr

/-- Replace the (first) binding of key `k`, or append a fresh binding:
the effect of peewee's `get_or_create` followed by field updates and
`save()` (for `Result`), and of delete-where-result-then-`insert_many`
(for the `Answer` rows of one `Result`). -/
def setAssoc {α : Type} : List (String × α) → String → α → List (String × α)
  | [], k, v => [(k, v)]
  | (k1, v1) :: rest, k, v =>
    if k1 = k then (k, v) :: rest else (k1, v1) :: setAssoc rest k v

/-- Look up the (first) binding of key `k`. -/
def lookupAssoc {α : Type} (l : List (String × α)) (k : String) : Option α :=
  (l.find? (fun kv => kv.1 == k)).map (fun kv => kv.2)

/-- The effective question id of the `i`-th batch item:
`qid = ans.get("qId", i)` followed by `int(qid)` — an absent key falls
back to the enumeration index `i`, a present value keeps its coercion
result. -/
def coercedQid (i : Nat) (a : AnsItem) : Option Int :=
  match a.qId with
  | none => some (i : Int)
  | some v => v

/-- The body of the scoring loop of `submit_quiz` for the `i`-th item:
skip on a non-coercible `qId`, skip on an out-of-range `qId`, skip on a
non-coercible `selected`; otherwise accumulate a numeric `time_sec` and
count the answer as correct exactly when the bank's stored `answer` is
an integer equal to `selected`. -/
def gradeStep (questions : List Question) (i : Nat) (a : AnsItem) (acc : GradeAcc) : GradeAcc :=
  match coercedQid i a with
  | none => acc
  | some qid =>
    if 0 ≤ qid ∧ qid < (questions.length : Int) then
      match a.selected with
      | none => acc
      | some sel =>
        let acc1 : GradeAcc :=
          match a.time_sec with
          | some t => ⟨acc.correct, acc.total_time + t, acc.time_counts + 1⟩
          | none => acc
        match (questions.getD qid.toNat default).answer with
        | some ca => if sel = ca then ⟨acc1.correct + 1, acc1.total_time, acc1.time_counts⟩ else acc1
        | none => acc1
    else acc

/-- The scoring loop: `for i, ans in enumerate(answers): ...` over the
three accumulators, starting from `correct = 0`, `total_time = 0`,
`time_counts = 0`. -/
def grade (questions : List Question) (answers : List AnsItem) : GradeAcc :=
  answers.enum.foldl (fun acc p => gradeStep questions p.1 p.2 acc) ⟨0, 0, 0⟩

/-- The aggregates written to the `Result` row: `points = correct * 2`
and `avg_time = total_time / time_counts if time_counts else 0`. -/
def scoreOf (questions : List Question) (answers : List AnsItem) : ResultRow :=
  let g := grade questions answers
  ⟨g.correct, g.correct * 2, if g.time_counts = 0 then 0 else g.total_time / (g.time_counts : ℚ)⟩

/-- Responses of `/submit-quiz` (both error cases are HTTP 400). -/
inductive SubmitResp where
  | ok
  | missingRegno
  | notRegistered
  deriving DecidableEq, Repr

/-- `submit_quiz`: strip `regno`, reject when empty, resolve the
participant (400 when unregistered), grade the batch against the bank,
upsert-overwrite the participant's `Result` aggregates, and replace the
`Result`'s `Answer` rows by one row per submitted batch item. -/
def submit_quiz (questions : List Question) (st : Store) (regnoRaw : String)
    (answers : List AnsItem) : SubmitResp × Store :=
  if strTrim regnoRaw = "" then (.missingRegno, st)
  else
    match st.participants.find? (fun p => p.regno == strTrim regnoRaw) with
    | none => (.notRegistered, st)
    | some _ =>
      (.ok,
        { st with
          results := setAssoc st.results (strTrim regnoRaw) (scoreOf questions answers),
          answers := setAssoc st.answers (strTrim regnoRaw) answers })

/-- Responses of `/register` (`missingFields` and `badYear` are HTTP
400, `conflict` is HTTP 409). -/
inductive RegResp where
  | ok (name regno : String)
  | missingFields
  | badYear
  | conflict
  deriving DecidableEq, Repr

/-- `register`: strip all fields, reject when any is empty, parse the
year as an integer, reject a duplicate `regno` with 409 (never updating
the existing row), otherwise create the `Participant` and lazily create
its zeroed `Result` if absent. -/
def register (st : Store) (nameRaw regnoRaw collegeRaw departmentRaw yearRaw : String) :
    RegResp × Store :=
  if strTrim nameRaw = "" ∨ strTrim regnoRaw = "" ∨ strTrim collegeRaw = "" ∨
      strTrim departmentRaw = "" ∨ strTrim yearRaw = "" then
    (.missingFields, st)
  else
    match strToInt (strTrim yearRaw) with
    | none => (.badYear, st)
    | some year =>
      match st.participants.find? (fun p => p.regno == strTrim regnoRaw) with
      | some _ => (.conflict, st)
      | none =>
        let p : Participant :=
          ⟨strTrim nameRaw, strTrim regnoRaw, strTrim collegeRaw, strTrim departmentRaw, year⟩
        let results1 :=
          match lookupAssoc st.results (strTrim regnoRaw) with
          | some _ => st.results
          | none => st.results ++ [(strTrim regnoRaw, ⟨0, 0, 0⟩)]
        (.ok (strTrim nameRaw) (strTrim regnoRaw),
          { participants := st.participants ++ [p], results := results1, answers := st.answers })

/-- One item returned by `/questions` (the answer key is withheld). -/
structure QOut where
  id : Nat
  question : String
  options : List String
  deriving DecidableEq, Repr

/-- `get_questions`: split the bank into `set_a = qs[:15]` and
`set_b = qs[15:]`, choose one half (`pick_a` models
`random.choice([set_a, set_b])`), and emit each chosen question with
`id = qs.index(q)` — the first index of an equal question in the full
bank. -/
def get_questions (qs : List Question) (pick_a : Bool) : List QOut :=
  let set_a := qs.take 15
  let set_b := qs.drop 15
  let chosen_set := if pick_a then set_a else set_b
  chosen_set.map (fun q => ⟨qs.indexOf q, q.question, q.options⟩)

/-- An `/admin/api/add-question` request body.
* `question = some s`: the (string) value; `none`: absent/falsy (the
  code substitutes `""`).
* `options = some l`: the value is the list `l`; `none`: absent, falsy
  or not a list (the code substitutes `[]` or fails `isinstance`; both
  are rejected below exactly as in the source).
* `answer = some n`: the value is the integer `n`; `none`: absent or
  not an integer (`isinstance(answer, int)` fails). -/
structure AddReq where
  question : Option String
  options : Option (List String)
  answer : Option Int
  deriving DecidableEq, Repr

/-- Responses of `/admin/api/add-question`: success with the new total
count, or HTTP 400. -/
inductive AddResp where
  | ok (count : Nat)
  | badRequest
  deriving DecidableEq, Repr

/-- `admin_api_add_question`: reject an empty (stripped) question text,
an options value that is not a list of length at least 2, or an answer
that is not an integer index into the options; otherwise append the new
question to the bank and return the new total count. -/
def admin_api_add_question (bank : List Question) (req : AddReq) : AddResp × List Question :=
  let question := strTrim (req.question.getD "")
  let options := req.options.getD []
  if question = "" then (.badRequest, bank)
  else if options.length < 2 then (.badRequest, bank)
  else
    match req.answer with
    | none => (.badRequest, bank)
    | some answer =>
      if 0 ≤ answer ∧ answer < (options.length : Int) then
        let questions := bank ++ [⟨question, options, some answer⟩]
        (.ok questions.length, questions)
      else (.badRequest, bank)

/-- One leaderboard row (a `Result` joined with its `Participant`). -/
structure Entry where
  name : String
  regno : String
  correct : Nat
  points : Nat
  avg_time : ℚ
  deriving DecidableEq, Repr

/-- The comparator of `ORDER BY Result.points DESC, Result.avg_time
ASC`: `a` may be placed before `b` iff `a` has strictly more points, or
equal points and an average time at most `b`'s. -/
def lbRel (a b : Entry) : Prop :=
  b.points < a.points ∨ (a.points = b.points ∧ a.avg_time ≤ b.avg_time)

instance : DecidableRel lbRel := fun a b => by
  unfold lbRel; infer_instance

instance : IsTotal Entry lbRel where
  total a b := by
    unfold lbRel
    rcases Nat.lt_trichotomy a.points b.points with h | h | h
    · exact Or.inr (Or.inl h)
    · rcases le_total a.avg_time b.avg_time with ht | ht
      · exact Or.inl (Or.inr ⟨h, ht⟩)
      · exact Or.inr (Or.inr ⟨h.symm, ht⟩)
    · exact Or.inl (Or.inl h)

instance : IsTrans Entry lbRel where
  trans a b c hab hbc := by
    unfold lbRel at *
    rcases hab with h1 | ⟨h1, t1⟩ <;> rcases hbc with h2 | ⟨h2, t2⟩
    · exact Or.inl (h2.trans h1)
    · exact Or.inl (h2 ▸ h1)
    · exact Or.inl (h1 ▸ h2)
    · exact Or.inr ⟨h1.trans h2, t1.trans t2⟩

/-- `/api/leaderboard`: all rows ordered by `points DESC, avg_time
ASC`. -/
def leaderboard_api (rows : List Entry) : List Entry :=
  List.insertionSort lbRel rows

/-- `/admin/api/top`: the first 10 rows of the same order, each paired
with its 1-based position as `rank`. -/
def admin_api_top (rows : List Entry) : List (Nat × Entry) :=
  ((List.insertionSort lbRel rows).take 10).enum.map (fun p => (p.1 + 1, p.2))

/-! ### Declarative characterization of the grading loop -/

/-- The `i`-th batch item counts as correct: its effective question id
is an in-range integer, its `selected` value coerces to an integer, and
the bank question's stored answer is an integer equal to it. -/
def itemScores (questions : List Question) (i : Nat) (a : AnsItem) : Bool :=
  match coercedQid i a, a.selected with
  | some qid, some sel =>
    if 0 ≤ qid ∧ qid < (questions.length : Int) then
      match (questions.getD qid.toNat default).answer with
      | some ca => decide (sel = ca)
      | none => false
    else false
  | _, _ => false

/-- The `i`-th batch item contributes to the average-time computation:
it passes the question-id and `selected` validity checks and carries a
numeric `time_sec`. -/
def itemTimed (questions : List Question) (i : Nat) (a : AnsItem) : Bool :=
  match coercedQid i a, a.selected with
  | some qid, some _ =>
    if 0 ≤ qid ∧ qid < (questions.length : Int) then a.time_sec.isSome else false
  | _, _ => false

/-! ### Claim-side predicates and concrete instances -/

/-- The ordering property claimed for the leaderboard: non-increasing
`points`, and within equal `points` non-decreasing `avg_time`. -/
def claimRel (a b : Entry) : Prop :=
  b.points ≤ a.points ∧ (a.points = b.points → a.avg_time ≤ b.avg_time)

/-- The request's options value is not a list of length at least 2 (a
missing, falsy or non-list value behaves as the empty list). -/
def optionsBad (req : AddReq) : Prop :=
  (req.options.getD []).length < 2

/-- The request's answer value is not an integer index into the
options. -/
def answerBad (req : AddReq) : Prop :=
  match req.answer with
  | none => True
  | some a => ¬(0 ≤ a ∧ a < ((req.options.getD []).length : Int))

/-- The two-question bank of the spec's grading scenario (also the bank
of the repository's tests). -/
def scBank : List Question :=
  [⟨"What is 2+2?", ["3", "4", "5", "6"], some 1⟩,
   ⟨"What is the capital of France?", ["London", "Berlin", "Paris", "Madrid"], some 2⟩]

/-- The submitted batch of the spec's grading scenario. -/
def scBatch : List AnsItem :=
  [⟨some (some 0), some 1, some 10⟩, ⟨some (some 1), some 2, some 15⟩]

/-- A store with one registered participant `TEST001` holding a
non-zero prior `Result` and one prior `Answer` row. -/
def scStore : Store :=
  ⟨[⟨"Test User", "TEST001", "Test College", "Computer Science", 2023⟩],
   [("TEST001", ⟨1, 2, 31 / 2⟩)],
   [("TEST001", [⟨some (some 0), some 1, some 10⟩])]⟩

/-- A bank holding the same question twice. -/
def dupBank : List Question :=
  [⟨"Q1", ["A", "B"], some 0⟩, ⟨"Q1", ["A", "B"], some 0⟩]

/-- A bank of two distinct questions. -/
def twoBank : List Question :=
  [⟨"Q1", ["A", "B"], some 0⟩, ⟨"Q2", ["A", "B"], some 1⟩]

/-- A bank of a single question whose correct option is `0`. -/
def oneQBank : List Question :=
  [⟨"Q1", ["A", "B"], some 0⟩]

/-- An answer item with no `qId` key, selecting option `0`, with a
numeric time. -/
def missingQidItem : AnsItem := ⟨none, some 0, some 5⟩

/-- An answer item whose `qId` is present but not coercible to an
integer. -/
def badQidItem : AnsItem := ⟨some none, some 0, some 7⟩

/-- The spec scenario request `addQuestion("Q?", ["A"], 0)`. -/
def reqBadOpts : AddReq := ⟨some "Q?", some ["A"], some 0⟩

/-- A valid add-question request (the one of the repository's tests). -/
def reqGood : AddReq := ⟨some "What is 3+3?", some ["5", "6", "7", "8"], some 1⟩

/-- Three leaderboard rows, two of them fully tied. -/
def rowsEx : List Entry :=
  [⟨"A", "R1", 1, 2, 10⟩, ⟨"B", "R2", 2, 4, 5⟩, ⟨"C", "R3", 2, 4, 5⟩]

/-! ### Theorems -/

/-- Effect of one pass of the scoring loop on the accumulators. -/
theorem gradeStep_eq (questions : List Question) (i : Nat) (a : AnsItem) (acc : GradeAcc) :
    gradeStep questions i a acc =
      ⟨acc.correct + (if itemScores questions i a then 1 else 0),
       acc.total_time + (if itemTimed questions i a then a.time_sec.getD 0 else 0),
       acc.time_counts + (if itemTimed questions i a then 1 else 0)⟩ := by
  unfold gradeStep itemScores itemTimed
  cases coercedQid i a with
  | none => simp
  | some qid =>
    cases hs : a.selected with
    | none => simp
    | some sel =>
      by_cases hr : 0 ≤ qid ∧ qid < (questions.length : Int)
      · simp only [if_pos hr]
        cases ht : a.time_sec with
        | none =>
          cases (questions.getD qid.toNat default).answer with
          | none => simp
          | some ca => by_cases hc : sel = ca <;> simp [hc]
        | some t =>
          cases (questions.getD qid.toNat default).answer with
          | none => simp
          | some ca => by_cases hc : sel = ca <;> simp [hc]
      · simp [if_neg hr]

/-- The scoring loop over `enumFrom n`, with arbitrary starting
accumulators: `correct` counts the items that score, `total_time` sums
and `time_counts` counts the items that contribute time. -/
theorem grade_enumFrom (questions : List Question) (l : List AnsItem) :
    ∀ (n : Nat) (acc : GradeAcc),
      ((l.enumFrom n).foldl (fun acc p => gradeStep questions p.1 p.2 acc) acc) =
        ⟨acc.correct + ((l.enumFrom n).filter (fun p => itemScores questions p.1 p.2)).length,
         acc.total_time +
           (((l.enumFrom n).filter (fun p => itemTimed questions p.1 p.2)).map
             (fun p => p.2.time_sec.getD 0)).sum,
         acc.time_counts + ((l.enumFrom n).filter (fun p => itemTimed questions p.1 p.2)).length⟩ := by
  induction l with
  | nil => intro n acc; simp
  | cons a l ih =>
    intro n acc
    rw [List.enumFrom_cons]
    simp only [List.foldl_cons, List.filter_cons]
    rw [ih (n + 1) (gradeStep questions n a acc), gradeStep_eq]
    by_cases hS : itemScores questions n a <;> by_cases hT : itemTimed questions n a <;>
      simp [hS, hT, add_assoc, Nat.add_comm 1]

/-- The grading accumulators, characterized declaratively over the
enumerated batch. -/
theorem grade_eq (questions : List Question) (answers : List AnsItem) :
    grade questions answers =
      ⟨(answers.enum.filter (fun p => itemScores questions p.1 p.2)).length,
       ((answers.enum.filter (fun p => itemTimed questions p.1 p.2)).map
          (fun p => p.2.time_sec.getD 0)).sum,
       (answers.enum.filter (fun p => itemTimed questions p.1 p.2)).length⟩ := by
  unfold grade
  rw [show answers.enum = answers.enumFrom 0 from rfl, grade_enumFrom]
  simp

/-! ### Association-list store lemmas -/

theorem lookupAssoc_setAssoc {α : Type} (l : List (String × α)) (k : String) (v : α) :
    lookupAssoc (setAssoc l k v) k = some v := by
  induction l with
  | nil => simp [setAssoc, lookupAssoc]
  | cons kv rest ih =>
    obtain ⟨k1, v1⟩ := kv
    by_cases h : k1 = k
    · simp [setAssoc, h, lookupAssoc]
    · have hb : (k1 == k) = false := by simpa using h
      simp only [setAssoc, if_neg h, lookupAssoc, List.find?_cons, hb]
      exact ih

/-- `submit_quiz` on a registered participant: it succeeds and replaces
the participant's `Result` aggregates and `Answer` rows. -/
theorem submit_quiz_spec (questions : List Question) (st : Store) (regno : String)
    (batch : List AnsItem) (hr : strTrim regno = regno) (hne : regno ≠ "")
    (hp : ∃ x ∈ st.participants, x.regno = regno) :
    submit_quiz questions st regno batch =
      (.ok, { st with results := setAssoc st.results regno (scoreOf questions batch),
                      answers := setAssoc st.answers regno batch }) := by
  unfold submit_quiz
  rw [hr, if_neg hne]
  cases hf : st.participants.find? (fun p => p.regno == regno) with
  | none =>
    rw [List.find?_eq_none] at hf
    obtain ⟨x, hx, he⟩ := hp
    exact absurd (by simpa using he) (by simpa using hf x hx)
  | some q => rfl

/-- Claim C1: for every registered participant and every submitted
batch, the stored `Result` has `correctCount` equal to the number of
answer items whose coerced integer `selected` exactly equals the bank
question's stored integer answer at the item's (coerced) question id,
`points` equal to `correctCount * 2`, and `avg_time` equal to the sum
of the numeric `time_sec` values of the counted answers divided by
their count when that count is positive and `0` otherwise. -/
theorem submit_grading_formula (questions : List Question) (st : Store) (regno : String)
    (batch : List AnsItem) (hr : strTrim regno = regno) (hne : regno ≠ "")
    (hp : ∃ x ∈ st.participants, x.regno = regno) :
    (submit_quiz questions st regno batch).1 = SubmitResp.ok ∧
    lookupAssoc (submit_quiz questions st regno batch).2.results regno =
      some ⟨(batch.enum.filter (fun p => itemScores questions p.1 p.2)).length,
            (batch.enum.filter (fun p => itemScores questions p.1 p.2)).length * 2,
            if (batch.enum.filter (fun p => itemTimed questions p.1 p.2)).length = 0 then 0
            else ((batch.enum.filter (fun p => itemTimed questions p.1 p.2)).map
                    (fun p => p.2.time_sec.getD 0)).sum /
                 ((batch.enum.filter (fun p => itemTimed questions p.1 p.2)).length : ℚ)⟩ := by
  rw [submit_quiz_spec questions st regno batch hr hne hp]
  refine ⟨rfl, ?_⟩
  have hs : scoreOf questions batch =
      ⟨(batch.enum.filter (fun p => itemScores questions p.1 p.2)).length,
       (batch.enum.filter (fun p => itemScores questions p.1 p.2)).length * 2,
       if (batch.enum.filter (fun p => itemTimed questions p.1 p.2)).length = 0 then 0
       else ((batch.enum.filter (fun p => itemTimed questions p.1 p.2)).map
               (fun p => p.2.time_sec.getD 0)).sum /
            ((batch.enum.filter (fun p => itemTimed questions p.1 p.2)).length : ℚ)⟩ := by
    unfold scoreOf
    rw [grade_eq]
  rw [show ({ st with
        results := setAssoc st.results regno (scoreOf questions batch),
        answers := setAssoc st.answers regno batch } : Store).results =
      setAssoc st.results regno (scoreOf questions batch) from rfl, hs,
    lookupAssoc_setAssoc]

/-- Witness for C1 at the spec's concrete scenario: two correct
answers give `correctCount = 2`, `points = 4`, `avgTimeSeconds =
12.5`. -/
theorem submit_grading_formula_witness :
    (submit_quiz scBank scStore "TEST001" scBatch).1 = SubmitResp.ok ∧
    lookupAssoc (submit_quiz scBank scStore "TEST001" scBatch).2.results "TEST001" =
      some ⟨2, 4, 25 / 2⟩ := by
  have h := submit_grading_formula scBank scStore "TEST001" scBatch (by decide) (by decide)
    ⟨⟨"Test User", "TEST001", "Test College", "Computer Science", 2023⟩, by decide, rfl⟩
  refine ⟨h.1, ?_⟩
  rw [h.2]
  have h1 : scBatch.enum.filter (fun p => itemScores scBank p.1 p.2) = scBatch.enum := by decide
  have h2 : scBatch.enum.filter (fun p => itemTimed scBank p.1 p.2) = scBatch.enum := by decide
  rw [h1, h2]
  norm_num [scBatch, List.enum, List.enumFrom]

/-- Claim C2: submitting the same batch twice in a row leaves the
stored `Result` aggregates unchanged between the first and second
submission, and after each submission the stored `Answer` rows are
exactly one row per item of the submitted batch (row count equals the
batch length, never the sum across submissions). -/
theorem submit_idempotent (questions : List Question) (st : Store) (regno : String)
    (batch : List AnsItem) (hr : strTrim regno = regno) (hne : regno ≠ "")
    (hp : ∃ x ∈ st.participants, x.regno = regno) :
    (submit_quiz questions st regno batch).1 = SubmitResp.ok ∧
    (submit_quiz questions (submit_quiz questions st regno batch).2 regno batch).1 =
      SubmitResp.ok ∧
    lookupAssoc (submit_quiz questions st regno batch).2.results regno =
      lookupAssoc (submit_quiz questions (submit_quiz questions st regno batch).2 regno
        batch).2.results regno ∧
    lookupAssoc (submit_quiz questions st regno batch).2.answers regno = some batch ∧
    lookupAssoc (submit_quiz questions (submit_quiz questions st regno batch).2 regno
        batch).2.answers regno = some batch ∧
    (lookupAssoc (submit_quiz questions st regno batch).2.answers regno).map List.length =
      some batch.length ∧
    (lookupAssoc (submit_quiz questions (submit_quiz questions st regno batch).2 regno
        batch).2.answers regno).map List.length = some batch.length := by
  have h1 := submit_quiz_spec questions st regno batch hr hne hp
  have h2 := submit_quiz_spec questions
      { st with results := setAssoc st.results regno (scoreOf questions batch),
                answers := setAssoc st.answers regno batch } regno batch hr hne hp
  simp [h1, h2, lookupAssoc_setAssoc]

/-- Witness for C2: submitting the scenario batch twice leaves the
stored aggregates equal, and the row count equals the batch length. -/
theorem submit_idempotent_witness :
    lookupAssoc (submit_quiz scBank scStore "TEST001" scBatch).2.results "TEST001" =
      lookupAssoc (submit_quiz scBank (submit_quiz scBank scStore "TEST001" scBatch).2
        "TEST001" scBatch).2.results "TEST001" ∧
    (lookupAssoc (submit_quiz scBank scStore "TEST001" scBatch).2.answers "TEST001").map
      List.length = some 2 := by
  have h := submit_idempotent scBank scStore "TEST001" scBatch (by decide) (by decide)
    ⟨⟨"Test User", "TEST001", "Test College", "Computer Science", 2023⟩, by decide, rfl⟩
  exact ⟨h.2.2.1, h.2.2.2.2.2.1⟩

/-- Claim C9: submitting an empty batch succeeds and overwrites the
participant's `Result` to all-zero aggregates while deleting every
prior `Answer` row, leaving zero rows. -/
theorem submit_empty_overwrites (questions : List Question) (st : Store) (regno : String)
    (hr : strTrim regno = regno) (hne : regno ≠ "")
    (hp : ∃ x ∈ st.participants, x.regno = regno) :
    (submit_quiz questions st regno []).1 = SubmitResp.ok ∧
    lookupAssoc (submit_quiz questions st regno []).2.results regno = some ⟨0, 0, 0⟩ ∧
    lookupAssoc (submit_quiz questions st regno []).2.answers regno =
      some ([] : List AnsItem) := by
  have h1 := submit_quiz_spec questions st regno [] hr hne hp
  simp [h1, lookupAssoc_setAssoc]
  rfl

/-- Witness for C9: the participant's prior non-zero `Result` and prior
`Answer` row are erased by an empty submission. -/
theorem submit_empty_overwrites_witness :
    lookupAssoc scStore.results "TEST001" = some ⟨1, 2, 31 / 2⟩ ∧
    (lookupAssoc scStore.answers "TEST001").map List.length = some 1 ∧
    lookupAssoc (submit_quiz scBank scStore "TEST001" []).2.results "TEST001" =
      some ⟨0, 0, 0⟩ ∧
    lookupAssoc (submit_quiz scBank scStore "TEST001" []).2.answers "TEST001" =
      some ([] : List AnsItem) := by
  have h := submit_empty_overwrites scBank scStore "TEST001" (by decide) (by decide)
    ⟨⟨"Test User", "TEST001", "Test College", "Computer Science", 2023⟩, by decide, rfl⟩
  exact ⟨rfl, rfl, h.2.1, h.2.2⟩

/-- Claim C6: a second registration with an already-registered regno
(and otherwise valid fields) fails with `ConflictError` (HTTP 409) and
leaves the whole store — in particular the existing `Participant`
record — unchanged. -/
theorem register_conflict_preserves (st : Store)
    (nameRaw regnoRaw collegeRaw departmentRaw yearRaw : String)
    (h1 : strTrim nameRaw ≠ "") (h2 : strTrim regnoRaw ≠ "")
    (h3 : strTrim collegeRaw ≠ "") (h4 : strTrim departmentRaw ≠ "")
    (h5 : strTrim yearRaw ≠ "") (h6 : (strToInt (strTrim yearRaw)).isSome)
    (hp : ∃ x ∈ st.participants, x.regno = strTrim regnoRaw) :
    register st nameRaw regnoRaw collegeRaw departmentRaw yearRaw = (RegResp.conflict, st) := by
  unfold register
  rw [if_neg (by simp [h1, h2, h3, h4, h5])]
  cases hy : strToInt (strTrim yearRaw) with
  | none => rw [hy] at h6; simp at h6
  | some y =>
    cases hf : st.participants.find? (fun p => p.regno == strTrim regnoRaw) with
    | none =>
      rw [List.find?_eq_none] at hf
      obtain ⟨x, hx, he⟩ := hp
      exact absurd (by simpa using he) (by simpa using hf x hx)
    | some q => rfl

/-- Witness for C6: re-registering `TEST001` yields a conflict and the
store is unchanged. -/
theorem register_conflict_preserves_witness :
    register scStore "Duplicate User" "TEST001" "Some College" "CS" "2024" =
      (RegResp.conflict, scStore) :=
  register_conflict_preserves scStore "Duplicate User" "TEST001" "Some College" "CS" "2024"
    (by decide) (by decide) (by decide) (by decide) (by decide) (by decide)
    ⟨⟨"Test User", "TEST001", "Test College", "Computer Science", 2023⟩, by decide, by decide⟩

/-- Counterexample to claim C5 as stated: a batch consisting of one
answer item whose `qId` key is *missing* is not dropped from scoring —
the code falls back to the enumeration index, so the item is scored
(here: correct, with its time accumulated). -/
theorem skip_missing_qid_counterexample :
    ¬ ((grade oneQBank [missingQidItem]).correct = 0 ∧
       (grade oneQBank [missingQidItem]).time_counts = 0) := by
  decide

/-- Claim C5 (amended): an answer item whose `qId` is present but not
coercible to an integer is silently dropped — appended to any batch it
changes nothing, and the loop body leaves the accumulators untouched on
such an item — while an item whose `qId` key is *missing* is scored as
if its question id were the item's zero-based position in the batch. -/
theorem skip_invalid_qid (questions : List Question) (batch : List AnsItem) (bad : AnsItem)
    (hbad : bad.qId = some none) :
    grade questions (batch ++ [bad]) = grade questions batch ∧
    (∀ (i : Nat) (a : AnsItem) (acc : GradeAcc), a.qId = some none →
      gradeStep questions i a acc = acc) ∧
    (∀ (i : Nat) (a : AnsItem) (acc : GradeAcc), a.qId = none →
      gradeStep questions i a acc =
        gradeStep questions i ⟨some (some (i : Int)), a.selected, a.time_sec⟩ acc) := by
  refine ⟨?_, ?_, ?_⟩
  · unfold grade
    rw [List.enum_append, List.foldl_append]
    simp only [List.enumFrom, List.foldl_cons, List.foldl_nil]
    unfold gradeStep coercedQid
    rw [hbad]
  · intro i a acc ha
    unfold gradeStep coercedQid
    rw [ha]
  · intro i a acc ha
    unfold gradeStep coercedQid
    rw [ha]

/-- Witness for C5 (amended) at concrete inputs. -/
theorem skip_invalid_qid_witness :
    grade oneQBank ([⟨some (some 0), some 0, some 3⟩] ++ [badQidItem]) =
      grade oneQBank [⟨some (some 0), some 0, some 3⟩] ∧
    gradeStep oneQBank 0 badQidItem ⟨0, 0, 0⟩ = ⟨0, 0, 0⟩ ∧
    gradeStep oneQBank 0 missingQidItem ⟨0, 0, 0⟩ =
      gradeStep oneQBank 0 ⟨some (some 0), missingQidItem.selected, missingQidItem.time_sec⟩
        ⟨0, 0, 0⟩ := by
  have h := skip_invalid_qid oneQBank [⟨some (some 0), some 0, some 3⟩] badQidItem rfl
  exact ⟨h.1, h.2.1 0 badQidItem ⟨0, 0, 0⟩ rfl, h.2.2 0 missingQidItem ⟨0, 0, 0⟩ rfl⟩

/-- Claim C10: answer items are scored independently with no
deduplication by question id — a batch of `k` copies of an item that
selects question `qid`'s correct option yields `correctCount = k` and
`points = 2 * k`. -/
theorem submit_no_dedup (questions : List Question) (qid : Nat) (sel : Int) (k : Nat)
    (q : Question) (hq : questions[qid]? = some q) (ha : q.answer = some sel) :
    (grade questions (List.replicate k ⟨some (some (qid : Int)), some sel, none⟩)).correct = k ∧
    (scoreOf questions (List.replicate k ⟨some (some (qid : Int)), some sel, none⟩)).points =
      2 * k := by
  obtain ⟨hlt, hget⟩ := List.getElem?_eq_some_iff.mp hq
  have hscore : ∀ i : Nat,
      itemScores questions i ⟨some (some (qid : Int)), some sel, none⟩ = true := by
    intro i
    unfold itemScores coercedQid
    simp only
    rw [if_pos ⟨Int.ofNat_nonneg qid, by exact_mod_cast hlt⟩, Int.toNat_ofNat,
      List.getD_eq_getElem questions default hlt, hget, ha]
    simp
  have hall : ∀ p ∈ (List.replicate k
      (⟨some (some (qid : Int)), some sel, none⟩ : AnsItem)).enum,
      itemScores questions p.1 p.2 = true := by
    intro p hp
    have h2 : p.2 ∈ List.replicate k (⟨some (some (qid : Int)), some sel, none⟩ : AnsItem) := by
      have h3 := List.mem_map_of_mem Prod.snd hp
      rwa [show (List.replicate k
          (⟨some (some (qid : Int)), some sel, none⟩ : AnsItem)).enum.map Prod.snd =
          List.replicate k (⟨some (some (qid : Int)), some sel, none⟩ : AnsItem) from
        List.enumFrom_map_snd 0 _] at h3
    rw [List.eq_of_mem_replicate h2]
    exact hscore p.1
  have hc : (grade questions
      (List.replicate k ⟨some (some (qid : Int)), some sel, none⟩)).correct = k := by
    simp only [grade_eq, List.filter_eq_self.mpr hall]
    simp [List.enumFrom_length]
  refine ⟨hc, ?_⟩
  simp only [scoreOf, hc]
  exact Nat.mul_comm k 2

/-- Witness for C10: three copies of the correct answer to the single
question of a one-question bank give `correctCount = 3 > 1` and
`points = 6 > 2 * bankLength`. -/
theorem submit_no_dedup_witness :
    (grade oneQBank (List.replicate 3 ⟨some (some 0), some 0, none⟩)).correct = 3 ∧
    (scoreOf oneQBank (List.replicate 3 ⟨some (some 0), some 0, none⟩)).points = 2 * 3 ∧
    oneQBank.length = 1 ∧ 3 > oneQBank.length ∧ 2 * 3 > 2 * oneQBank.length := by
  have h := submit_no_dedup oneQBank 0 0 3 ⟨"Q1", ["A", "B"], some 0⟩ (by decide) rfl
  exact ⟨h.1, h.2, rfl, by decide, by decide⟩

/-- The `i`-th returned question item comes from the bank position `i`
(first half) or `15 + i` (second half), and carries
`id = qs.indexOf` of that source question. -/
theorem get_questions_get (qs : List Question) (pick_a : Bool) (i : Nat)
    (h : i < (get_questions qs pick_a).length) :
    ∃ (j : Nat) (hj : j < qs.length),
      (pick_a = true → j = i) ∧ (pick_a = false → j = 15 + i) ∧
      (get_questions qs pick_a).get ⟨i, h⟩ =
        ⟨qs.indexOf (qs.get ⟨j, hj⟩), (qs.get ⟨j, hj⟩).question, (qs.get ⟨j, hj⟩).options⟩ := by
  cases pick_a with
  | true =>
    have hlen : i < (qs.take 15).length := by
      simpa [get_questions] using h
    have hj : i < qs.length := by
      rw [List.length_take] at hlen
      exact lt_of_lt_of_le hlen (Nat.min_le_right 15 qs.length)
    refine ⟨i, hj, fun _ => rfl, fun hc => absurd hc (by simp), ?_⟩
    simp [get_questions, List.getElem_take]
  | false =>
    have hlen : i < (qs.drop 15).length := by
      simpa [get_questions] using h
    have hj : 15 + i < qs.length := by
      rw [List.length_drop] at hlen
      omega
    refine ⟨15 + i, hj, fun hc => absurd hc (by simp), fun _ => rfl, ?_⟩
    simp [get_questions, List.getElem_drop]

/-- Counterexample to claim C3 as stated: with a bank holding two equal
questions, the second returned item's `id` is `0`, not its own absolute
position `1` — `qs.index(q)` returns the first index of an *equal*
question. -/
theorem selector_id_counterexample :
    ¬ (∀ (qs : List Question) (pick_a : Bool) (i : Nat)
        (h : i < (get_questions qs pick_a).length),
        ((get_questions qs pick_a).get ⟨i, h⟩).id = (if pick_a then i else 15 + i)) := by
  intro hcl
  have h := hcl dupBank true 1 (by decide)
  exact absurd h (by decide)

/-- Claim C3 (amended): each returned item's `id` is the first bank
index holding a question equal to its source question; it is always a
valid index into the full bank, and the bank entry at that index has
exactly the returned text and options; when the bank has no duplicate
entries, `id` equals the item's original absolute position. -/
theorem selector_id_first_index (qs : List Question) (pick_a : Bool) (i : Nat)
    (h : i < (get_questions qs pick_a).length) :
    ((get_questions qs pick_a).get ⟨i, h⟩).id < qs.length ∧
    (qs.getD ((get_questions qs pick_a).get ⟨i, h⟩).id default).question =
      ((get_questions qs pick_a).get ⟨i, h⟩).question ∧
    (qs.getD ((get_questions qs pick_a).get ⟨i, h⟩).id default).options =
      ((get_questions qs pick_a).get ⟨i, h⟩).options ∧
    (qs.Nodup → ((get_questions qs pick_a).get ⟨i, h⟩).id = if pick_a then i else 15 + i) := by
  obtain ⟨j, hj, hT, hF, heq⟩ := get_questions_get qs pick_a i h
  have hmem : qs.get ⟨j, hj⟩ ∈ qs := List.get_mem qs j hj
  have hidx : qs.indexOf (qs.get ⟨j, hj⟩) < qs.length := List.indexOf_lt_length.mpr hmem
  have hentry : qs.getD (qs.indexOf (qs.get ⟨j, hj⟩)) default = qs.get ⟨j, hj⟩ := by
    rw [List.getD_eq_getElem qs default hidx]
    exact List.getElem_indexOf hidx
  refine ⟨?_, ?_, ?_, ?_⟩
  · rw [heq]; exact hidx
  · rw [heq]; rw [hentry]
  · rw [heq]; rw [hentry]
  · intro hnd
    rw [heq]
    show qs.indexOf (qs.get ⟨j, hj⟩) = _
    rw [List.get_eq_getElem, List.indexOf_getElem hnd j hj]
    cases pick_a with
    | true => rw [if_pos rfl, hT rfl]
    | false => rw [if_neg (by simp), hF rfl]

/-- Witness for C3 (amended) at a concrete bank and index. -/
theorem selector_id_first_index_witness :
    ((get_questions twoBank true).get ⟨1, by decide⟩).id < twoBank.length ∧
    (twoBank.getD ((get_questions twoBank true).get ⟨1, by decide⟩).id default).question =
      ((get_questions twoBank true).get ⟨1, by decide⟩).question ∧
    (twoBank.getD ((get_questions twoBank true).get ⟨1, by decide⟩).id default).options =
      ((get_questions twoBank true).get ⟨1, by decide⟩).options ∧
    (twoBank.Nodup → ((get_questions twoBank true).get ⟨1, by decide⟩).id =
      if true then 1 else 15 + 1) :=
  selector_id_first_index twoBank true 1 (by decide)

/-- Counterexample to claim C4 as stated: for a bank of 2 questions the
selector returns 2 items or 0 items, never `⌈2/2⌉ = ⌊2/2⌋ = 1` — the
split is hard-coded at position 15, not at half the bank length. -/
theorem selector_half_counterexample :
    ¬ (∀ (qs : List Question) (pick_a : Bool),
        (get_questions qs pick_a).length = qs.length / 2 ∨
        (get_questions qs pick_a).length = (qs.length + 1) / 2) := by
  intro hcl
  rcases hcl twoBank true with h | h <;> exact absurd h (by decide)

/-- Claim C4 (amended): the selector splits the bank at the fixed
position 15 — the first half is bank indices `[0, min 15 n)`, the
second half `[min 15 n, n)` — so it returns `min 15 n` or `n - 15`
items, and for the empty bank it returns the empty sequence. -/
theorem selector_fixed_split (qs : List Question) (pick_a : Bool) :
    (get_questions qs true).length = min 15 qs.length ∧
    (get_questions qs false).length = qs.length - 15 ∧
    (∀ (i : Nat) (h1 : i < (get_questions qs true).length),
      ((get_questions qs true).get ⟨i, h1⟩).question = (qs.getD i default).question ∧
      ((get_questions qs true).get ⟨i, h1⟩).options = (qs.getD i default).options) ∧
    (∀ (i : Nat) (h2 : i < (get_questions qs false).length),
      ((get_questions qs false).get ⟨i, h2⟩).question = (qs.getD (15 + i) default).question ∧
      ((get_questions qs false).get ⟨i, h2⟩).options = (qs.getD (15 + i) default).options) ∧
    get_questions ([] : List Question) pick_a = [] := by
  refine ⟨by simp [get_questions], by simp [get_questions], ?_, ?_, ?_⟩
  · intro i h1
    obtain ⟨j, hj, hT, _, heq⟩ := get_questions_get qs true i h1
    have hji := hT rfl
    subst hji
    rw [heq, List.getD_eq_getElem qs default hj]
    exact ⟨rfl, rfl⟩
  · intro i h2
    obtain ⟨j, hj, _, hF, heq⟩ := get_questions_get qs false i h2
    have hji := hF rfl
    subst hji
    rw [heq, List.getD_eq_getElem qs default hj]
    exact ⟨rfl, rfl⟩
  · cases pick_a <;> rfl

/-- Witness for C4 (amended) at a concrete bank and indices. -/
theorem selector_fixed_split_witness :
    (get_questions twoBank true).length = min 15 twoBank.length ∧
    (get_questions twoBank false).length = twoBank.length - 15 ∧
    ((get_questions twoBank true).get ⟨0, by decide⟩).question =
      (twoBank.getD 0 default).question ∧
    get_questions ([] : List Question) false = [] := by
  have h := selector_fixed_split twoBank false
  exact ⟨h.1, h.2.1, (h.2.2.1 0 (by decide)).1, h.2.2.2.2⟩

/-- Claim C7: the leaderboard is sorted non-increasing in `points` and,
within equal `points`, non-decreasing in `avg_time`; the admin top view
is the first 10 entries of this same order, with rank numbers assigned
densely by output position as 1, 2, 3, …. -/
theorem ranking_sorted_dense (rows : List Entry) :
    List.Pairwise claimRel (leaderboard_api rows) ∧
    (admin_api_top rows).map Prod.snd = (leaderboard_api rows).take 10 ∧
    ∀ (i : Nat) (h : i < (admin_api_top rows).length),
      ((admin_api_top rows).get ⟨i, h⟩).1 = i + 1 := by
  refine ⟨?_, ?_, ?_⟩
  · have hs := List.sorted_insertionSort lbRel rows
    refine List.Pairwise.imp ?_ hs
    intro a b hab
    rcases hab with hlt | ⟨heq, hle⟩
    · exact ⟨Nat.le_of_lt hlt, fun he => absurd (he ▸ hlt) (lt_irrefl _)⟩
    · exact ⟨Nat.le_of_eq heq.symm, fun _ => hle⟩
  · unfold admin_api_top leaderboard_api
    rw [List.map_map]
    rw [show (Prod.snd ∘ fun p : Nat × Entry => (p.1 + 1, p.2)) = Prod.snd from rfl]
    exact List.enumFrom_map_snd 0 _
  · intro i h
    unfold admin_api_top
    simp only [List.get_eq_getElem, List.getElem_map, List.getElem_enum]

/-- Witness for C7 at a concrete row set containing a full tie. -/
theorem ranking_sorted_dense_witness :
    List.Pairwise claimRel (leaderboard_api rowsEx) ∧
    (admin_api_top rowsEx).map Prod.snd = (leaderboard_api rowsEx).take 10 ∧
    ((admin_api_top rowsEx).get ⟨0, by decide⟩).1 = 1 ∧
    ((admin_api_top rowsEx).get ⟨1, by decide⟩).1 = 2 := by
  have h := ranking_sorted_dense rowsEx
  exact ⟨h.1, h.2.1, h.2.2 0 (by decide), h.2.2 1 (by decide)⟩

/-- Claim C8: an add-question request whose options value is not a list
of length at least 2 or whose answer is not an integer index into the
options is rejected with HTTP 400 and leaves the bank unchanged; on
success the new question is appended at the end and the returned count
equals the new bank length. -/
theorem add_question_validation (bank : List Question) (req : AddReq) :
    ((optionsBad req ∨ answerBad req) →
      admin_api_add_question bank req = (AddResp.badRequest, bank)) ∧
    (∀ (c : Nat) (bank2 : List Question),
      admin_api_add_question bank req = (AddResp.ok c, bank2) →
      (∃ q1 : Question, bank2 = bank ++ [q1]) ∧ c = bank2.length) := by
  constructor
  · intro hbad
    unfold admin_api_add_question
    by_cases hq : strTrim (req.question.getD "") = ""
    · rw [if_pos hq]
    · rw [if_neg hq]
      by_cases hopt : (req.options.getD []).length < 2
      · rw [if_pos hopt]
      · rw [if_neg hopt]
        cases hbad with
        | inl hb => exact absurd hb hopt
        | inr hb =>
          unfold answerBad at hb
          cases ha : req.answer with
          | none => rfl
          | some a =>
            rw [ha] at hb
            dsimp only
            rw [if_neg hb]
  · intro c bank2 hok
    unfold admin_api_add_question at hok
    by_cases hq : strTrim (req.question.getD "") = ""
    · rw [if_pos hq] at hok
      exact absurd hok (by simp)
    · rw [if_neg hq] at hok
      by_cases hopt : (req.options.getD []).length < 2
      · rw [if_pos hopt] at hok
        exact absurd hok (by simp)
      · rw [if_neg hopt] at hok
        cases ha : req.answer with
        | none =>
          rw [ha] at hok
          exact absurd hok (by simp)
        | some a =>
          rw [ha] at hok
          dsimp only at hok
          by_cases hr : 0 ≤ a ∧ a < ((req.options.getD []).length : Int)
          · rw [if_pos hr] at hok
            rw [Prod.mk.injEq] at hok
            obtain ⟨h1, h2⟩ := hok
            cases h1
            refine ⟨⟨_, h2.symm⟩, ?_⟩
            rw [← h2]
          · rw [if_neg hr] at hok
            exact absurd hok (by simp)

/-- Witness for C8: the spec scenario `addQuestion("Q?", ["A"], 0)` is
rejected with the bank unchanged, and a valid request appends and
returns the new count. -/
theorem add_question_validation_witness :
    admin_api_add_question scBank reqBadOpts = (AddResp.badRequest, scBank) ∧
    (∃ q1 : Question,
      scBank ++ [⟨"What is 3+3?", ["5", "6", "7", "8"], some 1⟩] = scBank ++ [q1]) ∧
    3 = (scBank ++ [(⟨"What is 3+3?", ["5", "6", "7", "8"], some 1⟩ : Question)]).length := by
  refine ⟨(add_question_validation scBank reqBadOpts).1
    (Or.inl (by norm_num [optionsBad, reqBadOpts])), ?_, ?_⟩
  · exact ((add_question_validation scBank reqGood).2 3
      (scBank ++ [⟨"What is 3+3?", ["5", "6", "7", "8"], some 1⟩]) (by decide)).1
  · exact ((add_question_validation scBank reqGood).2 3
      (scBank ++ [⟨"What is 3+3?", ["5", "6", "7", "8"], some 1⟩]) (by decide)).2

end QuizApp
